import Mathlib

/-!
Shallow embedding of the navigation core of shsyss/File-manager
(easychangedirectory): `src/app.rs` (StatefulList, Item, App and the four
directional transitions) and `src/items.rs` (`read_dir`).

Filesystem access (`fs::read_dir`, `fs::read_to_string`, `Path::is_dir`) is
abstracted as an explicit capability record `FS`; a fixed `FS` value models
the assumption that no concurrent filesystem change occurs.  Rust `panic!`
sites (slice indexing, `Option::unwrap`) are modelled by `Option`-valued
transitions returning `none`; `anyhow::Result` never actually carries an
error in these functions (the listing layer fails soft), so no `Except` is
needed on top of that.
-/

set_option maxRecDepth 4000

namespace Ed

/-- Model of Rust `PathBuf`: an absolute flag plus the list of components.
`⟨false, []⟩` is the empty path `""`; `⟨true, []⟩` is the root `/`. -/
structure FsPath where
  absolute : Bool
  comps : List String
deriving DecidableEq

/-- The empty path, `Path::new("")`. -/
def FsPath.empty : FsPath := ⟨false, []⟩

/-- Rust `Path::parent`: `None` on the root `/` and on the empty path,
otherwise the path with the last component removed. -/
def FsPath.parent (p : FsPath) : Option FsPath :=
  match p.comps with
  | [] => none
  | _ :: _ => some ⟨p.absolute, p.comps.dropLast⟩

/-- Rust `path.to_string_lossy().is_empty()`. -/
def FsPath.isEmptyPath (p : FsPath) : Bool :=
  !p.absolute && p.comps.isEmpty

/-- Splits a character list at `sep`, keeping empty pieces (Rust
`str::split` behaviour used by `PathBuf` component parsing). -/
def splitOnCharAux (sep : Char) : List Char → List Char → List String
  | [], cur => [String.mk cur.reverse]
  | c :: rest, cur =>
      if c = sep then String.mk cur.reverse :: splitOnCharAux sep rest []
      else splitOnCharAux sep rest (c :: cur)

/-- Rust `PathBuf::from(s)` for the strings this program builds paths from:
absolute iff the string starts with `/`; components are the non-empty
slash-separated pieces. -/
def FsPath.ofString (s : String) : FsPath :=
  { absolute := s.data.head? = some '/',
    comps := (splitOnCharAux '/' s.data []).filter (fun c => c ≠ "") }

/-- Helper for `rustLines`: splits at newline characters; a final trailing
newline does not produce an extra empty line (Rust `str::lines`; the `\r\n`
refinement is irrelevant to the file contents considered here). -/
def linesAux : List Char → List Char → List String
  | [], cur => [String.mk cur.reverse]
  | c :: rest, cur =>
      if c = '\n' then
        String.mk cur.reverse :: (if rest.isEmpty then [] else linesAux rest [])
      else linesAux rest (c :: cur)

/-- Rust `str::lines` on a whole string: `""` has no lines. -/
def rustLines (s : String) : List String :=
  match s.data with
  | [] => []
  | cs => linesAux cs []

/-- The `State` enum of `app.rs` (entry kind).  `State.None` is the
sentinel the specification calls `Empty`. -/
inductive State where
  | File
  | Dir
  | RelationDir
  | Content
  | None
deriving DecidableEq

/-- The `Item` struct of `app.rs`. -/
structure Item where
  path : FsPath
  state : State
deriving DecidableEq

/-- `Item::change_state`: sets the kind and returns the updated item (the
Rust method mutates `self` in place and returns a clone; call sites below
model the in-place part with `List.set`). -/
def Item.change_state (it : Item) (s : State) : Item :=
  { it with state := s }

/-- `Item::is_dir`: true exactly for kinds `Dir` and `RelationDir`. -/
def Item.is_dir (it : Item) : Bool :=
  match it.state with
  | State.Dir => true
  | State.RelationDir => true
  | _ => false

/-- `Item::default`: empty path with the `None` (spec: `Empty`) kind. -/
def Item.default : Item :=
  { path := FsPath.empty, state := State.None }

/-- The filesystem capability consumed by the core.  `readDir p = none`
models an `fs::read_dir` error (missing path, permission denied, or `p`
being a regular file); `some entries` lists the children together with
their `is_dir` classification.  `readToString p = none` models an
`fs::read_to_string` failure; `some s` is the file text. -/
structure FS where
  readDir : FsPath → Option (List (FsPath × Bool))
  readToString : FsPath → Option String

/-- `items.rs::read_dir`: on a successful `fs::read_dir` each entry becomes
an `Item` classified `Dir`/`File` (entries whose iteration errored are
already dropped from the `FS` listing, matching the `entry.ok()?` filter);
on failure it returns `Ok(vec![Item::default()])` — a single placeholder,
never an error. -/
def read_dir (fs : FS) (p : FsPath) : List Item :=
  match fs.readDir p with
  | some entries =>
      entries.map (fun e => { path := e.1, state := if e.2 then State.Dir else State.File })
  | none => [Item.default]

/-- `tui::widgets::ListState`, reduced to the one field the core uses. -/
structure ListState where
  selected : Option Nat
deriving DecidableEq

/-- `ListState::select`. -/
def ListState.select (s : ListState) (i : Option Nat) : ListState :=
  { s with selected := i }

/-- The `StatefulList<T>` struct of `app.rs`. -/
structure StatefulList (α : Type) where
  state : ListState
  items : List α
deriving DecidableEq

/-- `StatefulList::with_items`: fresh list with the cursor on index 0. -/
def StatefulList.with_items {α : Type} (items : List α) : StatefulList α :=
  { state := { selected := some 0 }, items := items }

/-- `StatefulList::with_items_select`: fresh list with the cursor on a
given index. -/
def StatefulList.with_items_select {α : Type} (items : List α) (index : Nat) :
    StatefulList α :=
  { state := { selected := some index }, items := items }

/-- `StatefulList::next`: wrap-around advance.  (`self.items.len() - 1`
uses truncated `Nat` subtraction here; on an empty list the Rust `usize`
subtraction would already panic in a debug build, and every caller then
panics on the out-of-range index, which the `App` transitions model by
returning `none`.) -/
def StatefulList.next {α : Type} (l : StatefulList α) : StatefulList α :=
  let i := match l.state.selected with
    | some i => if i ≥ l.items.length - 1 then 0 else i + 1
    | none => 0
  { l with state := l.state.select (some i) }

/-- `StatefulList::previous`: wrap-around retreat. -/
def StatefulList.previous {α : Type} (l : StatefulList α) : StatefulList α :=
  let i := match l.state.selected with
    | some i => if i = 0 then l.items.length - 1 else i - 1
    | none => 0
  { l with state := l.state.select (some i) }

/-- The `App` struct of `app.rs`: the Navigation State. -/
structure App where
  child_items : List Item
  items : StatefulList Item
  parent_items : List Item
  grandparent_items : List Item
  pwd : FsPath
  grandparent_path : FsPath
deriving DecidableEq

/-- `App::generate_items`: the placeholder for an empty path string,
otherwise `items::read_dir` (which itself fails soft). -/
def App.generate_items (fs : FS) (p : FsPath) : List Item :=
  if p.isEmptyPath then [Item.default] else read_dir fs p

/-- `App::get_parent_path`: `parent()` with the empty path as fallback. -/
def App.get_parent_path (p : FsPath) : FsPath :=
  (p.parent).getD FsPath.empty

/-- The linear scan shared by `get_index_parent` / `get_index_grandparent`:
index of the first item whose path equals `pwd`. -/
def loopIndex (pwd : FsPath) : List Item → Option Nat
  | [] => none
  | it :: rest =>
      if it.path = pwd then some 0 else (loopIndex pwd rest).map (· + 1)

/-- `App::get_index_parent`: first index of `pwd` in `parent_items`,
defaulting to 0. -/
def App.get_index_parent (a : App) : Nat :=
  (loopIndex a.pwd a.parent_items).getD 0

/-- `App::get_index_grandparent`: first index of `pwd.parent()` in
`grandparent_items`, defaulting to 0; `none` models the `unwrap` panic
when `pwd` has no parent. -/
def App.get_index_grandparent (a : App) : Option Nat :=
  a.pwd.parent.map (fun pp => (loopIndex pp a.grandparent_items).getD 0)

/-- `Item::generate_child_items`: children for a directory-kind item, the
file's lines as `Content` items when `read_to_string` succeeds, otherwise
the single placeholder.  Total: every branch is fail-soft. -/
def Item.generate_child_items (it : Item) (fs : FS) : List Item :=
  if it.is_dir then App.generate_items fs it.path
  else match fs.readToString it.path with
    | some s =>
        (rustLines s).map (fun l => { path := FsPath.ofString l, state := State.Content })
    | none => [Item.default]

/-- `App::move_content` (the non-directory branch of Enter; dead code in
the source, kept for faithfulness). -/
def App.move_content (a : App) (selected_item : Item) : App :=
  { child_items := [Item.default],
    items := StatefulList.with_items a.child_items,
    parent_items := a.items.items,
    grandparent_items := a.parent_items,
    pwd := selected_item.path,
    grandparent_path := App.get_parent_path a.pwd }

/-- `App::move_child` (Enter).  The focused item is re-kinded
`RelationDir` in place before the `is_dir` test; `none` models the panics
on `selected().unwrap()`, on `items[i]`, and on `child_items[0]`. -/
def App.move_child (a : App) (fs : FS) : Option App :=
  match a.items.state.selected with
  | none => none
  | some i =>
    match a.items.items.get? i with
    | none => none
    | some itm =>
      let selected_item := itm.change_state State.RelationDir
      let a1 : App := { a with items := { a.items with items := a.items.items.set i selected_item } }
      if selected_item.is_dir then
        match a1.child_items.head? with
        | none => none
        | some first =>
          some { child_items := first.generate_child_items fs,
                 items := StatefulList.with_items a1.child_items,
                 parent_items := a1.items.items,
                 grandparent_items := a1.parent_items,
                 pwd := selected_item.path,
                 grandparent_path := App.get_parent_path a1.pwd }
      else
        some (a1.move_content selected_item)

/-- `App::update_child_items`: regenerate the child preview from the
focused item; `none` models the `items[i]` indexing panic. -/
def App.update_child_items (a : App) (fs : FS) : Option App :=
  match a.items.items.get? (a.items.state.selected.getD 0) with
  | none => none
  | some itm => some { a with child_items := itm.generate_child_items fs }

/-- `App::move_down`: cursor advance, then preview regeneration. -/
def App.move_down (a : App) (fs : FS) : Option App :=
  App.update_child_items { a with items := a.items.next } fs

/-- `App::move_up`: cursor retreat, then preview regeneration. -/
def App.move_up (a : App) (fs : FS) : Option App :=
  App.update_child_items { a with items := a.items.previous } fs

/-- `App::move_parent` (Leave): early return (no-op) when `pwd` has no
parent; otherwise shift the window one level up, restoring the cursor via
`get_index_parent` and freshly listing the new grandparent.  Total: none
of its callees can fail. -/
def App.move_parent (a : App) (fs : FS) : App :=
  match a.pwd.parent with
  | none => a
  | some pwd =>
    let grandparent_path := App.get_parent_path a.grandparent_path
    let grandparent_items := App.generate_items fs grandparent_path
    { child_items := a.items.items,
      items := StatefulList.with_items_select a.parent_items a.get_index_parent,
      parent_items := a.grandparent_items,
      grandparent_items := grandparent_items,
      pwd := pwd,
      grandparent_path := grandparent_path }

/-- `App::new`: initial state for a starting directory (the
`env::current_dir` result).  `none` models the panics on `items[0]`,
`parent_items[i]` and the `unwrap` inside `get_index_grandparent`. -/
def App.new (fs : FS) (pwd : FsPath) : Option App :=
  let items := read_dir fs pwd
  match items.head? with
  | none => none
  | some first =>
    let child_path := if first.is_dir then first.path else FsPath.empty
    let child_items := App.generate_items fs child_path
    let parent_path := App.get_parent_path pwd
    let grandparent_path := App.get_parent_path parent_path
    let app : App :=
      { child_items := child_items,
        items := StatefulList.with_items items,
        parent_items := App.generate_items fs parent_path,
        grandparent_items := App.generate_items fs grandparent_path,
        pwd := pwd,
        grandparent_path := grandparent_path }
    let i := app.get_index_parent
    match app.parent_items.get? i with
    | none => none
    | some pit =>
      let app : App := { app with parent_items := app.parent_items.set i (pit.change_state State.RelationDir) }
      match app.get_index_grandparent with
      | none => none
      | some j =>
        match app.grandparent_items.get? j with
        | none => none
        | some git =>
          some { app with grandparent_items := app.grandparent_items.set j (git.change_state State.RelationDir) }

/-- States reachable from some `App::new` initial state by the four
directional transitions against a fixed filesystem (no concurrent
change). -/
inductive Reachable (fs : FS) : App → Prop where
  | init : ∀ pwd a, App.new fs pwd = some a → Reachable fs a
  | down : ∀ a b, Reachable fs a → a.move_down fs = some b → Reachable fs b
  | up : ∀ a b, Reachable fs a → a.move_up fs = some b → Reachable fs b
  | child : ∀ a b, Reachable fs a → a.move_child fs = some b → Reachable fs b
  | parent : ∀ a, Reachable fs a → Reachable fs (a.move_parent fs)

/-- Modelled from the spec: the child preview the specification describes
for a focused entry — "if it is a directory, list its immediate children;
if it is a readable file, split its text into lines and wrap each as a
`Content` entry; otherwise substitute the `Empty` placeholder".  To be
compared with the source's `Item.generate_child_items`. -/
def preview_spec (fs : FS) (it : Item) : List Item :=
  if it.is_dir then read_dir fs it.path
  else match fs.readToString it.path with
    | some s =>
        (rustLines s).map (fun l => { path := FsPath.ofString l, state := State.Content })
    | none => [Item.default]

/-! ### Concrete fixtures shared by witnesses and counterexamples -/

/-- The filesystem root `/`. -/
def rootP : FsPath := ⟨true, []⟩

/-- The directory `/home`. -/
def homeP : FsPath := ⟨true, ["home"]⟩

/-- A filesystem on which every read fails. -/
def fsTriv : FS :=
  { readDir := fun _ => none, readToString := fun _ => none }

/-- A fallback `App` value for extracting states out of `Option`. -/
def appDead : App :=
  { child_items := [], items := { state := { selected := none }, items := [] },
    parent_items := [], grandparent_items := [],
    pwd := FsPath.empty, grandparent_path := FsPath.empty }

/-! ### Helper lemmas -/

theorem next_selected {α : Type} (l : StatefulList α) (i : Nat)
    (hsel : l.state.selected = some i) (hi : i < l.items.length) :
    (l.next).state.selected = some ((i + 1) % l.items.length) ∧
      (l.next).items = l.items := by
  refine ⟨?_, rfl⟩
  simp only [StatefulList.next, hsel, ListState.select]
  by_cases h : i ≥ l.items.length - 1
  · have hlen : i = l.items.length - 1 := le_antisymm (by omega) h
    subst hlen
    have : l.items.length - 1 + 1 = l.items.length := by omega
    rw [this, Nat.mod_self]
    simp
  · have h2 : i + 1 < l.items.length := by omega
    rw [Nat.mod_eq_of_lt h2]
    simp [h]

theorem next_iterate {α : Type} (l : StatefulList α) (i : Nat)
    (hsel : l.state.selected = some i) (hi : i < l.items.length) :
    ∀ k, (StatefulList.next^[k] l).items = l.items ∧
      (StatefulList.next^[k] l).state.selected = some ((i + k) % l.items.length) := by
  intro k
  induction k with
  | zero =>
    simpa [Nat.mod_eq_of_lt hi] using hsel
  | succ k ih =>
    have hlen0 : 0 < l.items.length := Nat.lt_of_le_of_lt (Nat.zero_le i) hi
    have hmod : (i + k) % l.items.length < (StatefulList.next^[k] l).items.length := by
      rw [ih.1]; exact Nat.mod_lt _ hlen0
    have h := next_selected (StatefulList.next^[k] l) ((i + k) % l.items.length) ih.2 hmod
    constructor
    · rw [Function.iterate_succ_apply', h.2, ih.1]
    · rw [Function.iterate_succ_apply', h.1, ih.1, Nat.mod_add_mod, Nat.add_assoc]

/-- Characterization of `App::move_child`: because the focused item is
re-kinded `RelationDir` before the `is_dir` test, the directory branch is
taken for every focus kind; the result is `none` exactly when the previous
child preview is empty (the `child_items[0]` panic). -/
theorem move_child_characterization (a : App) (fs : FS) (i : Nat)
    (hsel : a.items.state.selected = some i) (hi : i < a.items.items.length) :
    a.move_child fs = (a.child_items.head?).map (fun first =>
      { child_items := first.generate_child_items fs,
        items := StatefulList.with_items a.child_items,
        parent_items := a.items.items.set i ((a.items.items.get ⟨i, hi⟩).change_state State.RelationDir),
        grandparent_items := a.parent_items,
        pwd := (a.items.items.get ⟨i, hi⟩).path,
        grandparent_path := App.get_parent_path a.pwd }) := by
  unfold App.move_child
  rw [hsel]
  cases h : a.child_items.head? with
  | none => simp [List.getElem?_eq_getElem hi, Item.change_state, Item.is_dir, h]
  | some first => simp [List.getElem?_eq_getElem hi, Item.change_state, Item.is_dir, h]

/-- The Rust index-search loop finds the first matching index given a hit
at `i` and no hit strictly before `i`. -/
theorem loopIndex_spec (fp : FsPath) :
    ∀ (l : List Item) (i : Nat) (hi : i < l.length),
      (l.get ⟨i, hi⟩).path = fp →
      (∀ j (hj : j < i), (l.get ⟨j, Nat.lt_trans hj hi⟩).path ≠ fp) →
      loopIndex fp l = some i := by
  intro l
  induction l with
  | nil => intro i hi; exact absurd hi (by simp)
  | cons a t ih =>
    intro i hi hhit hmiss
    cases i with
    | zero =>
      unfold loopIndex
      rw [if_pos (show a.path = fp from hhit)]
    | succ k =>
      have hk : k < t.length := by simpa using hi
      unfold loopIndex
      rw [if_neg (show ¬a.path = fp from hmiss 0 (Nat.succ_pos k))]
      rw [ih k hk (show (t.get ⟨k, hk⟩).path = fp from hhit)
        (fun j hj => show (t.get ⟨j, _⟩).path ≠ fp from hmiss (j + 1) (by omega))]
      rfl

/-- Fields of `App::move_parent` when `pwd` has a parent. -/
theorem move_parent_fields (a : App) (fs : FS) (pp : FsPath)
    (hpp : a.pwd.parent = some pp) :
    (a.move_parent fs).pwd = pp ∧
    (a.move_parent fs).items.state.selected =
      some ((loopIndex a.pwd a.parent_items).getD 0) ∧
    (a.move_parent fs).items.items = a.parent_items := by
  unfold App.move_parent
  rw [hpp]
  exact ⟨rfl, rfl, rfl⟩

/-! ### Claims -/

/-- C7 (confirmed): when the underlying directory read fails with an I/O
error, `items.rs::read_dir` returns the single `Empty`-placeholder listing.
It is a total Lean function returning `List Item`, i.e. the modelled Rust
function always returns `Ok` and has no panic site. -/
theorem C7_read_dir_fails_soft (fs : FS) (p : FsPath)
    (h : fs.readDir p = none) :
    read_dir fs p = [Item.default] := by
  unfold read_dir
  rw [h]

/-- C7 witness: on a filesystem where every read fails, listing `/` yields
exactly the placeholder. -/
theorem C7_read_dir_fails_soft_witness :
    fsTriv.readDir rootP = none ∧ read_dir fsTriv rootP = [Item.default] :=
  ⟨rfl, C7_read_dir_fails_soft fsTriv rootP rfl⟩

/-- C9 (confirmed): at the filesystem root (`pwd` has no parent), Leave
(`move_parent`) returns the state unchanged — every field, including
`child_items` and `grandparent_path`, is identical. -/
theorem C9_leave_at_root_noop (fs : FS) (a : App)
    (h : a.pwd.parent = none) :
    a.move_parent fs = a := by
  unfold App.move_parent
  rw [h]

/-- Fixture for the C9 witness: a state anchored at `/`. -/
def appRootC9 : App :=
  { child_items := [Item.default], items := StatefulList.with_items [Item.default],
    parent_items := [Item.default], grandparent_items := [Item.default],
    pwd := rootP, grandparent_path := FsPath.empty }

/-- C9 witness: a concrete state at `/` is fixed by `move_parent`. -/
theorem C9_leave_at_root_noop_witness :
    appRootC9.pwd.parent = none ∧ appRootC9.move_parent fsTriv = appRootC9 :=
  ⟨by decide, C9_leave_at_root_noop fsTriv appRootC9 (by decide)⟩

/-- C10 (confirmed): on a `StatefulList` with a valid cursor, `next`
applied exactly `len` times returns the cursor to its original index, and
on a one-element list a single `next` keeps the cursor at index 0. -/
theorem C10_advance_cycle {α : Type} (l : StatefulList α) (i : Nat)
    (hsel : l.state.selected = some i) (hi : i < l.items.length) :
    (StatefulList.next^[l.items.length] l).state.selected = some i ∧
    (l.items.length = 1 → (l.next).state.selected = some 0) := by
  constructor
  · have h := (next_iterate l i hsel hi l.items.length).2
    rwa [Nat.add_mod_right, Nat.mod_eq_of_lt hi] at h
  · intro h1
    have h := (next_selected l i hsel hi).1
    have hi0 : i = 0 := by omega
    subst hi0
    rw [h1] at h
    simpa using h

/-- The directory `/home/d`. -/
def dirDP : FsPath := ⟨true, ["home", "d"]⟩

/-- The file `/home/d/x`. -/
def fileXP : FsPath := ⟨true, ["home", "d", "x"]⟩

/-- Fixture for C2: a state at `/home` whose focus is the directory
`/home/d`, with `/home/d/x` already in the child preview. -/
def appC2 : App :=
  { child_items := [{ path := fileXP, state := State.File }],
    items := StatefulList.with_items [{ path := dirDP, state := State.Dir }],
    parent_items := [Item.default], grandparent_items := [Item.default],
    pwd := homeP, grandparent_path := rootP }

/-- C2 counterexample: on a state whose focus is a `Dir` entry, Enter sets
`grandparent_path` to the parent of the old `pwd` (here `/`), not to the
old `pwd` (`/home`) as the claim states; and the new `parent` pane is not
the old `current` sequence verbatim — the focused entry has been re-kinded
`RelationDir`. -/
theorem C2_counterexample :
    appC2.items.state.selected = some 0 ∧
    (appC2.items.items.get ⟨0, by decide⟩).is_dir = true ∧
    (appC2.move_child fsTriv).map App.grandparent_path = some rootP ∧
    rootP ≠ appC2.pwd ∧
    (appC2.move_child fsTriv).map App.parent_items ≠ some appC2.items.items := by
  refine ⟨rfl, rfl, by decide, by decide, by decide⟩

/-- C2 (amended): Enter on a directory focus shifts the window one level
down: new `pwd` is the focus's path; new `current` is the previous
`child_preview` with the cursor on index 0; new `parent` is the old
`current` with the focused entry re-kinded `RelationDir`; new
`grandparent` is the old `parent`; new `grandparent_path` is the parent of
the old `pwd`; and the fresh `child_preview` is generated from element 0
of the previous `child_preview` (the entry focused in the new
`current`). -/
theorem C2_enter_directory_amended (a : App) (fs : FS) (i : Nat)
    (hsel : a.items.state.selected = some i) (hi : i < a.items.items.length)
    ( _hdir : (a.items.items.get ⟨i, hi⟩).is_dir = true)
    (hne : a.child_items ≠ []) :
    a.move_child fs = some
      { child_items := (a.child_items.head hne).generate_child_items fs,
        items := StatefulList.with_items a.child_items,
        parent_items := a.items.items.set i ((a.items.items.get ⟨i, hi⟩).change_state State.RelationDir),
        grandparent_items := a.parent_items,
        pwd := (a.items.items.get ⟨i, hi⟩).path,
        grandparent_path := App.get_parent_path a.pwd } := by
  rw [move_child_characterization a fs i hsel hi, List.head?_eq_head hne]
  rfl

/-- C2 amended witness: the concrete transition at `/home` focused on the
directory `/home/d`. -/
theorem C2_enter_directory_amended_witness :
    appC2.move_child fsTriv = some
      { child_items := [Item.default],
        items := StatefulList.with_items [{ path := fileXP, state := State.File }],
        parent_items := [{ path := dirDP, state := State.RelationDir }],
        grandparent_items := [Item.default],
        pwd := dirDP,
        grandparent_path := rootP } := by
  have h := C2_enter_directory_amended appC2 fsTriv 0 rfl (by decide) (by decide) (by decide)
  rw [h]
  decide

/-- Fixture for C3 and C8: a state at `/` whose focus is a `Content` entry
with the synthetic path `/home`. -/
def appContentFocus : App :=
  { child_items := [Item.default],
    items := StatefulList.with_items [{ path := homeP, state := State.Content }],
    parent_items := [Item.default], grandparent_items := [Item.default],
    pwd := rootP, grandparent_path := FsPath.empty }

/-- C3 (confirmed): in `move_child` the focused item's kind is set to
`RelationDir` before the directory test, so `is_dir` holds for every
focus; the transition therefore always produces the directory-branch
result (new `pwd` is the focus's path, new preview generated from element
0 of the old preview), never the `move_content` result, and the entry left
behind in the new `parent` pane is the `RelationDir`-marked focus whatever
its original kind. -/
theorem C3_enter_always_directory_branch (a : App) (fs : FS) (i : Nat)
    (hsel : a.items.state.selected = some i) (hi : i < a.items.items.length) :
    ((a.items.items.get ⟨i, hi⟩).change_state State.RelationDir).is_dir = true ∧
    a.move_child fs = (a.child_items.head?).map (fun first =>
      { child_items := first.generate_child_items fs,
        items := StatefulList.with_items a.child_items,
        parent_items := a.items.items.set i ((a.items.items.get ⟨i, hi⟩).change_state State.RelationDir),
        grandparent_items := a.parent_items,
        pwd := (a.items.items.get ⟨i, hi⟩).path,
        grandparent_path := App.get_parent_path a.pwd }) :=
  ⟨rfl, move_child_characterization a fs i hsel hi⟩

/-- C3 witness: entering a `Content` focus takes the directory branch —
`pwd` becomes the synthetic path and the `Content` entry is re-kinded
`RelationDir` in the new parent pane. -/
theorem C3_enter_always_directory_branch_witness :
    ((appContentFocus.items.items.get ⟨0, by decide⟩).change_state State.RelationDir).is_dir = true ∧
    (appContentFocus.move_child fsTriv).map App.pwd = some homeP ∧
    (appContentFocus.move_child fsTriv).map App.parent_items =
      some [{ path := homeP, state := State.RelationDir }] := by
  have h := C3_enter_always_directory_branch appContentFocus fsTriv 0 rfl (by decide)
  exact ⟨h.1, by decide, by decide⟩

/-- C8 (confirmed): Enter on a `Content` focus returns successfully — no
error and no panic — even when the synthetic path exists nowhere on the
filesystem (both reads fail on it), provided the state is well formed
(valid cursor, non-empty child preview). -/
theorem C8_enter_content_no_error (a : App) (fs : FS) (i : Nat)
    (hsel : a.items.state.selected = some i) (hi : i < a.items.items.length)
    ( _hkind : (a.items.items.get ⟨i, hi⟩).state = State.Content)
    (hne : a.child_items ≠ [])
    ( _hnodir : fs.readDir (a.items.items.get ⟨i, hi⟩).path = none)
    ( _hnofile : fs.readToString (a.items.items.get ⟨i, hi⟩).path = none) :
    (a.move_child fs).isSome = true := by
  rw [move_child_characterization a fs i hsel hi, List.head?_eq_head hne]
  rfl

/-- C8 witness: the `Content` focus `/home` on the all-fail filesystem. -/
theorem C8_enter_content_no_error_witness :
    (appContentFocus.move_child fsTriv).isSome = true ∧
    fsTriv.readDir homeP = none ∧ fsTriv.readToString homeP = none :=
  ⟨C8_enter_content_no_error appContentFocus fsTriv 0 rfl (by decide) (by decide)
      (by decide) rfl rfl, rfl, rfl⟩

/-- Fixture for the C10 witness: a two-element list with the cursor at 0. -/
def slC10 : StatefulList Item :=
  StatefulList.with_items [Item.default, { path := rootP, state := State.File }]

/-- C10 witness: advancing twice through the two-element list returns the
cursor to index 0. -/
theorem C10_advance_cycle_witness :
    (StatefulList.next^[slC10.items.length] slC10).state.selected = some 0 ∧
    (slC10.items.length = 1 → (slC10.next).state.selected = some 0) :=
  C10_advance_cycle slC10 0 rfl (by decide)

/-- The directory `/home/e`, successfully listable but containing no
entries. -/
def emptyDirP : FsPath := ⟨true, ["home", "e"]⟩

/-- Filesystem for C4: `/home/e` reads successfully as an empty directory;
everything else fails. -/
def fsC4 : FS :=
  { readDir := fun p => if p = emptyDirP then some [] else none,
    readToString := fun _ => none }

/-- Fixture for C4: the state obtained by listing the empty directory into
the `current` pane (as `move_child` would after focusing `/home/e`). -/
def appC4 : App :=
  { child_items := [],
    items := StatefulList.with_items (read_dir fsC4 emptyDirP),
    parent_items := [Item.default], grandparent_items := [Item.default],
    pwd := emptyDirP, grandparent_path := homeP }

/-- C4 (code bug): a directory that is read successfully but contains no
entries is listed as the empty sequence, not as the one-element `Empty`
placeholder the invariant requires; the `current` pane built from it is
empty while its cursor is still `Some 0` (out of range), and the next
cursor move or Enter hits an indexing panic (modelled by `none`). -/
theorem C4_empty_dir_no_placeholder :
    fsC4.readDir emptyDirP = some [] ∧
    read_dir fsC4 emptyDirP = [] ∧
    read_dir fsC4 emptyDirP ≠ [Item.default] ∧
    appC4.items.items = [] ∧
    appC4.items.state.selected = some 0 ∧
    appC4.move_down fsC4 = none ∧
    appC4.move_child fsC4 = none := by
  decide

/-- C5 (confirmed): entering the focused directory and immediately leaving
restores the original `pwd` and puts the cursor of `current` back on the
index of the entered entry, provided the focus really is a child of `pwd`
(its path's parent is `pwd`) and no earlier entry of `current` carries the
same path. -/
theorem C5_enter_then_leave (a : App) (fs : FS) (i : Nat)
    (hsel : a.items.state.selected = some i) (hi : i < a.items.items.length)
    ( _hdir : (a.items.items.get ⟨i, hi⟩).is_dir = true)
    (hpar : (a.items.items.get ⟨i, hi⟩).path.parent = some a.pwd)
    (hne : a.child_items ≠ [])
    (huniq : ∀ j (hj : j < i),
      (a.items.items.get ⟨j, Nat.lt_trans hj hi⟩).path ≠ (a.items.items.get ⟨i, hi⟩).path) :
    ∀ b, a.move_child fs = some b →
      (b.move_parent fs).pwd = a.pwd ∧
      (b.move_parent fs).items.state.selected = some i := by
  intro b hb
  rw [move_child_characterization a fs i hsel hi, List.head?_eq_head hne] at hb
  have hb' := Option.some.inj hb
  have hpar' : b.pwd.parent = some a.pwd := by rw [← hb']; exact hpar
  have hfields := move_parent_fields b fs a.pwd hpar'
  refine ⟨hfields.1, ?_⟩
  rw [hfields.2.1, ← hb']
  have hilen : i < (a.items.items.set i ((a.items.items.get ⟨i, hi⟩).change_state State.RelationDir)).length := by
    simpa using hi
  have hloop : loopIndex (a.items.items.get ⟨i, hi⟩).path
      (a.items.items.set i ((a.items.items.get ⟨i, hi⟩).change_state State.RelationDir)) = some i := by
    refine loopIndex_spec _ _ i hilen ?_ ?_
    · show ((a.items.items.set i _).get ⟨i, hilen⟩).path = _
      simp [List.getElem_set_self]
      rfl
    · intro j hj
      show ((a.items.items.set i _).get ⟨j, _⟩).path ≠ _
      have hjl : j < a.items.items.length := Nat.lt_trans hj hi
      have hne' : i ≠ j := by omega
      simp only [List.get_eq_getElem, List.getElem_set_ne hne']
      exact huniq j hj
  show some ((loopIndex (a.items.items.get ⟨i, hi⟩).path
      (a.items.items.set i ((a.items.items.get ⟨i, hi⟩).change_state State.RelationDir))).getD 0) = some i
  rw [hloop]
  rfl

/-- The state after entering `/home/d` from `appC2`. -/
def bC5 : App := (appC2.move_child fsTriv).getD appDead

/-- C5 witness: entering `/home/d` from `/home` and leaving again restores
`pwd = /home` and the cursor index 0 of the entered entry. -/
theorem C5_enter_then_leave_witness :
    appC2.move_child fsTriv = some bC5 ∧
    (bC5.move_parent fsTriv).pwd = appC2.pwd ∧
    (bC5.move_parent fsTriv).items.state.selected = some 0 := by
  have h := C5_enter_then_leave appC2 fsTriv 0 rfl (by decide) (by decide) (by decide)
    (by decide) (fun j hj => absurd hj (Nat.not_lt_zero j)) bC5 (by decide)
  exact ⟨by decide, h.1, h.2⟩

/-- `App::generate_items` agrees with `items.rs::read_dir` whenever the
filesystem cannot list the empty path (true of a real filesystem): the
empty-path guard and the fail-soft branch produce the same placeholder. -/
theorem generate_items_eq_read_dir (fs : FS)
    (hwf : fs.readDir FsPath.empty = none) (p : FsPath) :
    App.generate_items fs p = read_dir fs p := by
  unfold App.generate_items
  by_cases h : p.isEmptyPath
  · rw [if_pos h]
    obtain ⟨ab, comps⟩ := p
    simp only [FsPath.isEmptyPath, Bool.and_eq_true, Bool.not_eq_true', List.isEmpty_iff] at h
    obtain ⟨hab, hcomps⟩ := h
    subst hab hcomps
    have hwf' : fs.readDir ⟨false, []⟩ = none := hwf
    unfold read_dir
    rw [hwf']
  · rw [if_neg h]

/-- The source's child-preview computation refines the spec's description
of it, on any filesystem that cannot list the empty path. -/
theorem generate_child_items_eq_preview (fs : FS) (it : Item)
    (hwf : fs.readDir FsPath.empty = none) :
    it.generate_child_items fs = preview_spec fs it := by
  unfold Item.generate_child_items preview_spec
  rw [generate_items_eq_read_dir fs hwf]

/-- `App::update_child_items` regenerates `child_items` from the item
under the (unchanged) cursor. -/
theorem update_child_items_spec (a : App) (fs : FS) (b : App)
    (h : a.update_child_items fs = some b) :
    ∀ j (hj : j < b.items.items.length), b.items.state.selected = some j →
      b.child_items = (b.items.items.get ⟨j, hj⟩).generate_child_items fs := by
  unfold App.update_child_items at h
  cases hg : a.items.items.get? (a.items.state.selected.getD 0) with
  | none => rw [hg] at h; exact absurd h (by simp)
  | some itm =>
    rw [hg] at h
    have hb := Option.some.inj h
    subst hb
    intro j hj hsel
    have hsel' : a.items.state.selected = some j := hsel
    rw [hsel'] at hg
    have hg' : a.items.items.get? j = some itm := hg
    rw [List.get?_eq_get (show j < a.items.items.length from hj)] at hg'
    have hitm := Option.some.inj hg'
    show itm.generate_child_items fs = _
    rw [← hitm]

/-- C6 (confirmed): after a cursor move within `current` (`move_down` or
`move_up`), the regenerated `child_preview` is exactly what the spec
describes for the newly focused entry: its immediate children (per the
fail-soft listing) if it is directory-kind, the file's lines wrapped as
`Content` entries if its text is readable, and otherwise the single
`Empty` placeholder.  The filesystem hypothesis says only that the empty
path is not listable. -/
theorem C6_preview_after_cursor_move (a : App) (fs : FS)
    (hwf : fs.readDir FsPath.empty = none) :
    (∀ b, a.move_down fs = some b → ∀ j (hj : j < b.items.items.length),
        b.items.state.selected = some j →
        b.child_items = preview_spec fs (b.items.items.get ⟨j, hj⟩)) ∧
    (∀ b, a.move_up fs = some b → ∀ j (hj : j < b.items.items.length),
        b.items.state.selected = some j →
        b.child_items = preview_spec fs (b.items.items.get ⟨j, hj⟩)) := by
  constructor <;> intro b hb j hj hsel <;>
    rw [← generate_child_items_eq_preview fs _ hwf] <;>
    exact update_child_items_spec _ fs b hb j hj hsel

/-- Frame of `App::update_child_items`: only `child_items` changes. -/
theorem update_child_items_frame (a : App) (fs : FS) (b : App)
    (h : a.update_child_items fs = some b) :
    b.items = a.items ∧ b.pwd = a.pwd := by
  unfold App.update_child_items at h
  cases hg : a.items.items.get? (a.items.state.selected.getD 0) with
  | none => rw [hg] at h; exact absurd h (by simp)
  | some itm =>
    rw [hg] at h
    have hb := Option.some.inj h
    subst hb
    exact ⟨rfl, rfl⟩

/-- The file `/home/f`, with two lines of text. -/
def fileFP : FsPath := ⟨true, ["home", "f"]⟩

/-- Filesystem for the C1 counterexample: `/` contains `/home`, `/home`
contains only the regular file `/home/f` whose text is `a\nb`. -/
def fsC1 : FS :=
  { readDir := fun p =>
      if p = rootP then some [(homeP, true)]
      else if p = homeP then some [(fileFP, false)] else none,
    readToString := fun p => if p = fileFP then some "a\nb" else none }

/-- The initial state of the C1 counterexample run (`App::new` at
`/home`). -/
def app0C1 : App := (App.new fsC1 homeP).getD appDead

/-- After one `move_down` (cursor wraps onto `/home/f`, preview becomes
its content lines). -/
def app1C1 : App := (app0C1.move_down fsC1).getD appDead

/-- After Enter on the file `/home/f`: `pwd` is the file, `current` is its
content lines. -/
def app2C1 : App := (app1C1.move_child fsC1).getD appDead

/-- C1 counterexample: a reachable state (start at `/home`, one cursor
move, then Enter on the regular file `/home/f`) in which `current` shows
the file's `Content` lines while `pwd` is the file's path — `current`
does not list the immediate children of `pwd` (whose fail-soft listing is
the placeholder), with no concurrent filesystem change involved. -/
theorem C1_counterexample :
    Reachable fsC1 app2C1 ∧
    app2C1.items.items.map Item.path ≠ (read_dir fsC1 app2C1.pwd).map Item.path := by
  constructor
  · exact Reachable.child app1C1 app2C1
      (Reachable.down app0C1 app1C1 (Reachable.init homeP app0C1 (by decide)) (by decide))
      (by decide)
  · decide

/-- C1 (amended): the invariant "the paths listed in `current` are exactly
the paths of the listing of `pwd`" is preserved by every one of the four
transitions from a state whose panes are consistent (`current` lists
`pwd`, `child_preview` lists the directory-kind focus, `parent` lists
`pwd`'s parent); it is not an invariant of all reachable states, because
Enter on a file focus makes `current` the file's content lines (see the
counterexample). -/
theorem C1_invariant_amended (fs : FS) (a : App) (i : Nat)
    (hsel : a.items.state.selected = some i) (hi : i < a.items.items.length)
    ( _hfoc : (a.items.items.get ⟨i, hi⟩).is_dir = true)
    (h1 : a.items.items.map Item.path = (read_dir fs a.pwd).map Item.path)
    (hc : a.child_items.map Item.path =
      (read_dir fs (a.items.items.get ⟨i, hi⟩).path).map Item.path)
    (hp : a.parent_items.map Item.path =
      (read_dir fs (App.get_parent_path a.pwd)).map Item.path) :
    (∀ b, a.move_down fs = some b →
      b.items.items.map Item.path = (read_dir fs b.pwd).map Item.path) ∧
    (∀ b, a.move_up fs = some b →
      b.items.items.map Item.path = (read_dir fs b.pwd).map Item.path) ∧
    (∀ b, a.move_child fs = some b →
      b.items.items.map Item.path = (read_dir fs b.pwd).map Item.path) ∧
    ((a.move_parent fs).items.items.map Item.path =
      (read_dir fs (a.move_parent fs).pwd).map Item.path) := by
  refine ⟨?_, ?_, ?_, ?_⟩
  · intro b hb
    have hf := update_child_items_frame _ fs b hb
    rw [hf.1, hf.2]
    exact h1
  · intro b hb
    have hf := update_child_items_frame _ fs b hb
    rw [hf.1, hf.2]
    exact h1
  · intro b hb
    rw [move_child_characterization a fs i hsel hi] at hb
    cases hh : a.child_items.head? with
    | none => rw [hh] at hb; exact absurd hb (by simp)
    | some first =>
      rw [hh] at hb
      have hb' := Option.some.inj hb
      subst hb'
      exact hc
  · cases hpp : a.pwd.parent with
    | none =>
      have hnoop : a.move_parent fs = a := by unfold App.move_parent; rw [hpp]
      rw [hnoop]
      exact h1
    | some pp =>
      have hfields := move_parent_fields a fs pp hpp
      rw [hfields.1, hfields.2.2]
      rw [hp, App.get_parent_path, hpp]
      rfl

/-- Filesystem for the C1 amended witness: the chain
`/` ∋ `home` ∋ `d` ∋ `x` with `x` a regular file. -/
def fsW : FS :=
  { readDir := fun p =>
      if p = rootP then some [(homeP, true)]
      else if p = homeP then some [(dirDP, true)]
      else if p = dirDP then some [(fileXP, false)] else none,
    readToString := fun _ => none }

/-- Fixture for the C1 amended witness: the consistent state at `/home`
with the focus on `/home/d`. -/
def appW : App :=
  { child_items := read_dir fsW dirDP,
    items := StatefulList.with_items (read_dir fsW homeP),
    parent_items := read_dir fsW rootP,
    grandparent_items := [Item.default],
    pwd := homeP, grandparent_path := FsPath.empty }

/-- The state after Enter on `/home/d` from `appW`. -/
def bW : App := (appW.move_child fsW).getD appDead

/-- C1 amended witness: on the consistent concrete state, both Enter and
Leave lead to states where `current` again lists `pwd`. -/
theorem C1_invariant_amended_witness :
    appW.move_child fsW = some bW ∧
    bW.items.items.map Item.path = (read_dir fsW bW.pwd).map Item.path ∧
    (appW.move_parent fsW).items.items.map Item.path =
      (read_dir fsW (appW.move_parent fsW).pwd).map Item.path := by
  have h := C1_invariant_amended fsW appW 0 rfl (by decide) (by decide) (by decide)
    (by decide) (by decide)
  exact ⟨by decide, h.2.2.1 bW (by decide), h.2.2.2⟩

/-- The file `/home/README.md`. -/
def readmeP : FsPath := ⟨true, ["home", "README.md"]⟩

/-- Filesystem for the C6 witness: `/home` contains only `README.md`,
whose text is three lines `a`, `b`, `c`. -/
def fsC6 : FS :=
  { readDir := fun p => if p = homeP then some [(readmeP, false)] else none,
    readToString := fun p => if p = readmeP then some "a\nb\nc" else none }

/-- Fixture for the C6 witness: the state at `/home`. -/
def appC6 : App :=
  { child_items := [Item.default],
    items := StatefulList.with_items (read_dir fsC6 homeP),
    parent_items := [Item.default], grandparent_items := [Item.default],
    pwd := homeP, grandparent_path := rootP }

/-- The state after one `move_down` in `appC6`. -/
def bC6 : App := (appC6.move_down fsC6).getD appDead

/-- C6 witness: focusing `README.md` (content `a\nb\nc`) yields a child
preview of exactly three `Content` entries with paths `a`, `b`, `c`. -/
theorem C6_preview_after_cursor_move_witness :
    appC6.move_down fsC6 = some bC6 ∧
    bC6.items.state.selected = some 0 ∧
    bC6.child_items = preview_spec fsC6 (bC6.items.items.get ⟨0, by decide⟩) ∧
    bC6.child_items =
      [{ path := FsPath.ofString "a", state := State.Content },
       { path := FsPath.ofString "b", state := State.Content },
       { path := FsPath.ofString "c", state := State.Content }] := by
  refine ⟨by decide, by decide, ?_, by decide⟩
  exact (C6_preview_after_cursor_move appC6 fsC6 (by decide)).1 bC6 (by decide) 0
    (by decide) (by decide)

end Ed
